import Mathlib

/-!
Shallow embedding of the rclone crypt backend (backend/crypt/crypt.go) used to
verify its hash-footer handling, listing behaviour, upload flow and size
reporting.  Cryptographic primitives (secretbox seal/open, EME name
encryption) are abstracted as function parameters; the nonce arithmetic, size
arithmetic and encrypter internals live in cipher.go, which is not among the
sources, and are modelled from the specification where needed (their doc
comments say so).
-/

namespace RcloneCrypt

/-- Cipher version of the container format (config option cipher_version;
reads auto-detect the stored version from the magic bytes). -/
inductive CipherVersion
  | v1
  | v2
deriving DecidableEq, Repr

/-- Plaintext block size in bytes (64 KiB). -/
def blockSize : Nat := 65536

/-- secretbox.Overhead: the 16-byte Poly1305 tag. -/
def secretboxOverhead : Nat := 16

/-- Ciphertext block size: blockSize plus the tag (65552). -/
def blockCipherSize : Nat := blockSize + secretboxOverhead

/-- V1 header size: 8 magic bytes plus the 24-byte nonce. -/
def fileHeaderSize : Nat := 32

/-- Modelled from the spec: V2 header size including the wrapped CEK
(H2 = 80, spec section 4.7; the constant itself lives in cipher.go which is
not among the sources). -/
def fileHeaderSizeV2 : Nat := 80

/-- HashCryptSize: length of the stored plaintext MD5 (crypt.go line 33). -/
def HashCryptSize : Nat := 16

/-- HashEncryptedSize = HashCryptSize + secretbox.Overhead (crypt.go line 34). -/
def HashEncryptedSize : Nat := HashCryptSize + secretboxOverhead

/-- HashEncryptedSizeWithHeader = 1 + HashEncryptedSize = 33 (crypt.go line 35). -/
def HashEncryptedSizeWithHeader : Nat := 1 + HashEncryptedSize

/-- HashHeaderNoHash marker byte (crypt.go line 37). -/
def hashHeaderNoHash : List Nat := [0]

/-- HashHeaderMD5 marker byte (crypt.go line 38). -/
def hashHeaderMD5 : List Nat := [1]

/-- Modelled from the spec: lastBlockFlag (a constant of cipher.go, not among
the sources) marks the last block by bit 7 of the nonce's final byte, so its
byte value is 0x80.  None of the theorems below depend on the exact value. -/
def lastBlockFlag : Nat := 128

/-- Nonce length in bytes. -/
def nonceSize : Nat := 24

/-- Little-endian value of a byte list. -/
def toNatLE : List Nat → Nat
  | [] => 0
  | b :: bs => b + 256 * toNatLE bs

/-- Little-endian bytes of a number at a fixed width; carry beyond the width
is dropped, matching the byte-wise carry loop of the counter. -/
def toBytesLE : Nat → Nat → List Nat
  | 0, _ => []
  | w + 1, x => x % 256 :: toBytesLE w (x / 256)

/-- Modelled from the spec: nonce.add(k) treats the 24 bytes as a
little-endian counter and adds k (spec section 4.4; the nonce type lives in
cipher.go which is not among the sources). -/
def nonceAdd (m : List Nat) (k : Nat) : List Nat :=
  toBytesLE nonceSize (toNatLE m + k)

/-- Overwrite the nonce's final byte, as crypt.go does on lines 1231 and
1367 with the assignments to index len-1. -/
def setLastByte (m : List Nat) (v : Nat) : List Nat :=
  m.set (nonceSize - 1) v

/-- totalBlocks = ceil(decryptedSize / blockSize) (crypt.go line 1229; Go
computes this via float64 math.Ceil, which agrees with the integer ceiling
for all sizes below 2^53). -/
def totalBlocks (decryptedSize : Nat) : Nat :=
  (decryptedSize + blockSize - 1) / blockSize

/-- Modelled from the spec: after the encrypter's block loop has emitted
numBlocks blocks, the encrypter's nonce equals the starting nonce advanced by
numBlocks (spec sections 3 and 4.5; encrypter.Read lives in cipher.go which
is not among the sources). -/
def encrypterNonceAfterBlocks (startNonce : List Nat) (numBlocks : Nat) : List Nat :=
  nonceAdd startNonce numBlocks

/-- Footer nonce used by the writer wrapReaderAppendPlaintextHash
(crypt.go line 1367): the final byte of the encrypter's post-loop nonce is
overwritten with lastBlockFlag. -/
def writeFooterNonce (startNonce : List Nat) (numBlocks : Nat) : List Nat :=
  setLastByte (encrypterNonceAfterBlocks startNonce numBlocks) lastBlockFlag

/-- Footer nonce derived by the reader Object.Hash (crypt.go lines 1229 to
1231): start nonce advanced by totalBlocks, final byte overwritten with
lastBlockFlag. -/
def readFooterNonce (startNonce : List Nat) (decryptedSize : Nat) : List Nat :=
  setLastByte (nonceAdd startNonce (totalBlocks decryptedSize)) lastBlockFlag

/-- Footer bytes emitted by wrapReaderAppendPlaintextHash (crypt.go lines
1360 to 1372): the HashHeaderMD5 byte followed by the sealed MD5, limited by
io.LimitReader to HashEncryptedSizeWithHeader bytes.  The sealFn parameter
abstracts secretbox.Seal (plaintext, nonce, key). -/
def appendPlaintextHashFooter (sealFn : List Nat → List Nat → List Nat → List Nat)
    (md5Bytes startNonce : List Nat) (numBlocks : Nat) (cekBytes : List Nat) : List Nat :=
  (hashHeaderMD5 ++ sealFn md5Bytes (writeFooterNonce startNonce numBlocks) cekBytes).take
    HashEncryptedSizeWithHeader

/-- Lower-case hexadecimal digit. -/
def hexChar (n : Nat) : Char :=
  if n < 10 then Char.ofNat (48 + n) else Char.ofNat (87 + n)

/-- Hex encoding of one byte as two digits. -/
def hexByte (b : Nat) : List Char :=
  [hexChar (b / 16 % 16), hexChar (b % 16)]

/-- hex.EncodeToString over a byte list. -/
def hexEncode (bs : List Nat) : String :=
  String.mk ((bs.map hexByte).flatten)

/-- Error outcomes of Object.Hash and of the size arithmetic. -/
inductive CryptError
  | unsupported
  | badHashSize (n : Nat)
  | sizeError
  | hashDecryption
  | failed (msg : String)
deriving DecidableEq, Repr

/-- Modelled from the spec: Cipher.DecryptedSize (cipher.go, not among the
sources; spec section 4.7): subtract the header (and for V2 the footer),
split the body into full ciphertext blocks and a remainder r; r = 0 is exact,
r of at least 17 holds a short final block, anything else is an error. -/
def decryptedSizeSpec (c : Nat) (v : CipherVersion) : Except CryptError Nat :=
  let overhead :=
    match v with
    | CipherVersion.v1 => fileHeaderSize
    | CipherVersion.v2 => fileHeaderSizeV2 + HashEncryptedSizeWithHeader
  if c < overhead then Except.error CryptError.sizeError
  else
    let body := c - overhead
    let n := body / blockCipherSize
    let r := body % blockCipherSize
    if r = 0 then Except.ok (n * blockSize)
    else if secretboxOverhead + 1 ≤ r then Except.ok (n * blockSize + (r - secretboxOverhead))
    else Except.error CryptError.sizeError

/-- Modelled from the spec: Cipher.EncryptedSize (cipher.go, not among the
sources; spec section 4.7). -/
def encryptedSizeSpec (p : Nat) (v : CipherVersion) : Nat :=
  match v with
  | CipherVersion.v1 => fileHeaderSize + p + secretboxOverhead * totalBlocks p
  | CipherVersion.v2 =>
      fileHeaderSizeV2 + p + secretboxOverhead * totalBlocks p + HashEncryptedSizeWithHeader

/-- State produced by getDecrypter from the object header: detected cipher
version, starting nonce, and (for V2) the unwrapped CEK. -/
structure DecrypterState where
  cipherVersion : CipherVersion
  nonce : List Nat
  cek : List Nat
deriving DecidableEq, Repr

/-- The crypt options relevant to the claims (crypt.go Options struct). -/
structure CryptOptions where
  cipherVersion : CipherVersion
  passBadBlocks : Bool
  exactSize : Bool
  noDataEncryption : Bool
  strictNames : Bool
deriving DecidableEq, Repr

/-- Object.Hash (crypt.go lines 1179 to 1246).  getDecrypterResult stands for
the outcome of reading the object header; ciphertext is the stored object
(its length is o.Object.Size()); sbOpen abstracts secretbox.Open
(ciphertext, nonce, key); decryptedSizeExactResult stands for
DecryptedSizeExact, consulted only when the exact_size option is set. -/
def objectHash (opt : CryptOptions) (getDecrypterResult : Except CryptError DecrypterState)
    (ciphertext : List Nat) (sbOpen : List Nat → List Nat → List Nat → Option (List Nat))
    (decryptedSizeExactResult : Except CryptError Nat) : Except CryptError String :=
  if opt.cipherVersion = CipherVersion.v1 then Except.error CryptError.unsupported
  else
    match getDecrypterResult with
    | Except.error e => Except.error e
    | Except.ok d =>
      if d.cipherVersion = CipherVersion.v1 then Except.ok ""
      else
        let encryptedSize := ciphertext.length
        if encryptedSize < HashEncryptedSizeWithHeader then
          Except.error (CryptError.badHashSize encryptedSize)
        else
          let footerBytes := ciphertext.drop (encryptedSize - HashEncryptedSizeWithHeader)
          let hashHeader := footerBytes.take 1
          let encryptedHash := footerBytes.drop 1
          if hashHeader = hashHeaderNoHash then Except.error CryptError.unsupported
          else
            match
              (if opt.exactSize then decryptedSizeExactResult
               else decryptedSizeSpec encryptedSize d.cipherVersion) with
            | Except.error e => Except.error e
            | Except.ok decryptedSize =>
              match sbOpen encryptedHash (readFooterNonce d.nonce decryptedSize) d.cek with
              | some decryptedHash => Except.ok (hexEncode decryptedHash)
              | none =>
                if opt.passBadBlocks then Except.ok (hexEncode [])
                else Except.error CryptError.hashDecryption

/-- The hash set advertised to callers. -/
inductive HashSetModel
  | hashNone
  | hashMD5
deriving DecidableEq, Repr

/-- Fs.Hashes (crypt.go lines 610 to 615): MD5 exactly when the configured
cipher version is V2, otherwise no hash type. -/
def fsHashes (version : CipherVersion) : HashSetModel :=
  if version = CipherVersion.v2 then HashSetModel.hashMD5 else HashSetModel.hashNone

/-- Decidable equality for Except values. -/
instance instDecEqExcept {ε α : Type} [DecidableEq ε] [DecidableEq α] :
    DecidableEq (Except ε α) := fun a b =>
  match a, b with
  | Except.error e1, Except.error e2 =>
    if h : e1 = e2 then Decidable.isTrue (by rw [h])
    else Decidable.isFalse (fun hc => h (by cases hc; rfl))
  | Except.error _, Except.ok _ => Decidable.isFalse (fun hc => Except.noConfusion hc)
  | Except.ok _, Except.error _ => Decidable.isFalse (fun hc => Except.noConfusion hc)
  | Except.ok a1, Except.ok a2 =>
    if h : a1 = a2 then Decidable.isTrue (by rw [h])
    else Decidable.isFalse (fun hc => h (by cases hc; rfl))

/-- True exactly on Except.error. -/
def isErrB {ε α : Type} : Except ε α → Bool
  | Except.error _ => true
  | Except.ok _ => false

/-- Value of an Except, discarding the error. -/
def exceptToOption {ε α : Type} : Except ε α → Option α
  | Except.error _ => none
  | Except.ok a => some a

/-! ### Upload flow: Fs.put (crypt.go lines 527 to 593)

Put, PutStream and Object.Update all delegate to Fs.put, differing only in
which underlying put function they pass; that function's outcome is the
putResult oracle below. -/

/-- Environment of one call to Fs.put: outcomes of the external calls it
makes.  hashSupported is ht != hash.None after consulting the destination's
hash set and IgnoreChecksum; srcHash is what the tee-hasher produced;
removeResult is the outcome of o.Remove on the corruption path. -/
structure PutEnv where
  hashSupported : Bool
  putResult : Except String Nat
  srcHash : String
  dstHashResult : Except String String
  removeResult : Except String Unit
deriving DecidableEq, Repr

/-- Errors Fs.put can return. -/
inductive PutError
  | encryptFailed (msg : String)
  | putFailed (msg : String)
  | dstHashFailed (msg : String)
  | corruptedOnTransfer (srcHash dstHash : String)
deriving DecidableEq, Repr

/-- Observable outcome of Fs.put: the returned value, whether o.Remove was
called, whether the input stream was wrapped in an encrypter, and the remote
name the upload used (ObjectInfo.Remote of the wrapped source). -/
structure PutOutcome where
  result : Except PutError Nat
  removeAttempted : Bool
  dataEncrypted : Bool
  uploadName : String
deriving DecidableEq, Repr

/-- Fs.put (crypt.go lines 527 to 593).  encryptResult stands for the
outcome of cipher.encryptData; encryptFileName for the name cipher applied by
ObjectInfo.Remote (crypt.go line 1452), which is used on both branches. -/
def putFlow (noDataEncryption : Bool) (encryptResult : Except String Unit)
    (encryptFileName : String → String) (srcRemote : String) (env : PutEnv) : PutOutcome :=
  if noDataEncryption then
    { result :=
        match env.putResult with
        | Except.ok o => Except.ok o
        | Except.error e => Except.error (PutError.putFailed e)
      removeAttempted := false
      dataEncrypted := false
      uploadName := encryptFileName srcRemote }
  else
    match encryptResult with
    | Except.error e =>
      { result := Except.error (PutError.encryptFailed e), removeAttempted := false
        dataEncrypted := true, uploadName := encryptFileName srcRemote }
    | Except.ok _ =>
      match env.putResult with
      | Except.error e =>
        { result := Except.error (PutError.putFailed e), removeAttempted := false
          dataEncrypted := true, uploadName := encryptFileName srcRemote }
      | Except.ok o =>
        if env.hashSupported then
          match env.dstHashResult with
          | Except.error e =>
            { result := Except.error (PutError.dstHashFailed e), removeAttempted := false
              dataEncrypted := true, uploadName := encryptFileName srcRemote }
          | Except.ok dstHash =>
            if env.srcHash = "" then
              { result := Except.ok o, removeAttempted := false
                dataEncrypted := true, uploadName := encryptFileName srcRemote }
            else if dstHash = "" then
              { result := Except.ok o, removeAttempted := false
                dataEncrypted := true, uploadName := encryptFileName srcRemote }
            else if env.srcHash = dstHash then
              { result := Except.ok o, removeAttempted := false
                dataEncrypted := true, uploadName := encryptFileName srcRemote }
            else
              { result := Except.error (PutError.corruptedOnTransfer env.srcHash dstHash)
                removeAttempted := true
                dataEncrypted := true, uploadName := encryptFileName srcRemote }
        else
          { result := Except.ok o, removeAttempted := false
            dataEncrypted := true, uploadName := encryptFileName srcRemote }

/-! ### Directory listing: Fs.add, Fs.addDir, Fs.encryptEntries
(crypt.go lines 401 to 461) -/

/-- One entry returned by the underlying listing: a directory or an object,
with its stored (encrypted) name. -/
structure RawEntry where
  isDir : Bool
  encName : String
deriving DecidableEq, Repr

/-- Name decryption applied to an entry: DecryptDirName for directories,
DecryptFileName for objects (both live in cipher.go and are abstracted as the
parameters dfile and ddir). -/
def entryDecrypt (dfile ddir : String → Except String String) (e : RawEntry) :
    Except String String :=
  if e.isDir then ddir e.encName else dfile e.encName

/-- Fs.add and Fs.addDir (crypt.go lines 401 to 434): on success append the
entry; on a name-decryption failure return the error when strictNames is set,
otherwise log and skip.  The second component is the error add returned. -/
def addEntry (strict : Bool) (dfile ddir : String → Except String String)
    (acc : List String) (e : RawEntry) : List String × Option (String × String) :=
  match entryDecrypt dfile ddir e with
  | Except.ok dec => (acc ++ [dec], none)
  | Except.error err => if strict then (acc, some (e.encName, err)) else (acc, none)

/-- Hard error produced by Fs.encryptEntries: the number of undecryptable
names, and the first failing name with its error. -/
inductive ListError
  | undecryptable (count : Nat) (firstName firstErr : String)
deriving DecidableEq, Repr

/-- Loop of Fs.encryptEntries (crypt.go lines 437 to 461), carrying the
accumulated entries, the error counter, and the first error seen. -/
def encryptEntriesGo (strict : Bool) (dfile ddir : String → Except String String) :
    List RawEntry → List String → Nat → Option (String × String) →
    Except ListError (List String)
  | [], acc, errs, firstErr =>
    match firstErr with
    | some (n, e) => Except.error (ListError.undecryptable errs n e)
    | none => Except.ok acc
  | e :: rest, acc, errs, firstErr =>
    match addEntry strict dfile ddir acc e with
    | (acc2, none) => encryptEntriesGo strict dfile ddir rest acc2 errs firstErr
    | (acc2, some pr) =>
      encryptEntriesGo strict dfile ddir rest acc2 (errs + 1)
        (match firstErr with | some f => some f | none => some pr)

/-- Fs.encryptEntries (crypt.go lines 437 to 461), used by both List and
ListR on every tranche of underlying entries. -/
def encryptEntries (strict : Bool) (dfile ddir : String → Except String String)
    (entries : List RawEntry) : Except ListError (List String) :=
  encryptEntriesGo strict dfile ddir entries [] 0 none

/-! ### Object read side: Open, Size, Remote (crypt.go lines 1140 to 1296) -/

/-- Object.Open (crypt.go lines 1254 to 1257): with no_data_encryption the
underlying reader is returned directly; otherwise the DecryptDataSeek
pipeline (cipher.go, abstracted as decryptPipeline) wraps it. -/
def objectOpen (noDataEncryption : Bool) (underlying : List Nat)
    (decryptPipeline : List Nat → Except String (List Nat)) : Except String (List Nat) :=
  if noDataEncryption then Except.ok underlying else decryptPipeline underlying

/-- Object.Size (crypt.go lines 1152 to 1175): with no_data_encryption the
underlying size is returned unchanged; otherwise the decrypted-size
computation (abstracted as decryptedBranch) applies. -/
def objectSize (noDataEncryption : Bool) (underlyingSize : Int) (decryptedBranch : Int) : Int :=
  if noDataEncryption then underlyingSize else decryptedBranch

/-- ObjectInfo.Size (crypt.go lines 1456 to 1465): negative (unknown) sizes
pass through, no_data_encryption passes through, otherwise the
encrypted-size formula applies. -/
def objectInfoSize (noDataEncryption : Bool) (version : CipherVersion) (size : Int) : Int :=
  if size < 0 then size
  else if noDataEncryption then size
  else Int.ofNat (encryptedSizeSpec size.toNat version)

/-- ObjectInfo.Remote (crypt.go lines 1451 to 1453): always encrypts the
source's remote name; it does not consult no_data_encryption. -/
def objectInfoRemote (_noDataEncryption : Bool) (encryptFileName : String → String)
    (remote : String) : String :=
  encryptFileName remote

/-- Object.Remote (crypt.go lines 1141 to 1149): return the decrypted name,
or on a decryption failure log and return the stored encrypted name. -/
def objectRemote (decryptFileName : String → Except String String) (encRemote : String) :
    String :=
  match decryptFileName encRemote with
  | Except.ok dec => dec
  | Except.error _ => encRemote

/-! ### The decode backend command (crypt.go lines 1049 to 1058) -/

/-- Decode command: DecryptFileName on each argument in order; the first
failure aborts with an error naming that input. -/
def decodeCommand (dec : String → Except String String) : List String →
    Except (String × String) (List String)
  | [] => Except.ok []
  | a :: rest =>
    match dec a with
    | Except.error e => Except.error (a, e)
    | Except.ok v =>
      match decodeCommand dec rest with
      | Except.error pr => Except.error pr
      | Except.ok vs => Except.ok (v :: vs)

/-! ### Claim theorems -/

/-- C8: hash support is gated on the configured cipher version, not only the
stored object: with cipher_version v1 Object.Hash returns the
unsupported-hash error immediately, whatever the stored object, header read
or footer hold; and Fs.Hashes advertises MD5 exactly when the configured
version is v2 and no hash type otherwise. -/
theorem c8_hash_gated_on_config :
    (∀ (opt : CryptOptions) (gd : Except CryptError DecrypterState) (ct : List Nat)
        (sbOpen : List Nat → List Nat → List Nat → Option (List Nat))
        (ex : Except CryptError Nat), opt.cipherVersion = CipherVersion.v1 →
      objectHash opt gd ct sbOpen ex = Except.error CryptError.unsupported)
    ∧ fsHashes CipherVersion.v2 = HashSetModel.hashMD5
    ∧ fsHashes CipherVersion.v1 = HashSetModel.hashNone := by
  refine ⟨fun opt gd ct sbOpen ex h => ?_, rfl, rfl⟩
  simp [objectHash, h]

/-- Witness for c8_hash_gated_on_config: a concrete V2-stored object under a
v1-configured cipher still gets the unsupported-hash error. -/
theorem c8_hash_gated_on_config_witness :
    objectHash ⟨CipherVersion.v1, false, false, false, false⟩
      (Except.ok ⟨CipherVersion.v2, List.replicate 24 0, List.replicate 32 0⟩)
      (List.replicate 113 0) (fun _ _ _ => none) (Except.error CryptError.sizeError)
      = Except.error CryptError.unsupported :=
  c8_hash_gated_on_config.1 _ _ _ _ _ rfl

/-- C9: a negative (unknown) source size passes through ObjectInfo.Size
unchanged; the encrypted-size formula is not applied. -/
theorem c9_negative_size_passthrough (noData : Bool) (v : CipherVersion) (size : Int)
    (h : size < 0) : objectInfoSize noData v size = size := by
  simp [objectInfoSize, h]

/-- Witness for c9_negative_size_passthrough at size -1. -/
theorem c9_negative_size_passthrough_witness :
    objectInfoSize false CipherVersion.v2 (-1) = -1 :=
  c9_negative_size_passthrough false CipherVersion.v2 (-1) (by decide)

/-- C10: when the stored name fails to decrypt, Object.Remote returns the
encrypted underlying name unchanged (and, being String-valued, it never
returns an error). -/
theorem c10_remote_undecryptable (dec : String → Except String String) (r e : String)
    (h : dec r = Except.error e) : objectRemote dec r = r := by
  simp [objectRemote, h]

/-- Witness for c10_remote_undecryptable at a concrete failing name. -/
theorem c10_remote_undecryptable_witness :
    objectRemote (fun _ => Except.error "bad") "enc.bin" = "enc.bin" :=
  c10_remote_undecryptable _ "enc.bin" "bad" rfl

/-- C6 counterexample: with cipher_version v1 configured, Object.Hash on a
stored V1 object does not return the empty string with no error; the
configured-version gate returns the unsupported-hash error first. -/
theorem c6_v1_hash_counterexample :
    objectHash ⟨CipherVersion.v1, false, false, false, false⟩
      (Except.ok ⟨CipherVersion.v1, List.replicate 24 0, List.replicate 32 0⟩)
      [] (fun _ _ _ => none) (Except.error CryptError.sizeError)
      ≠ Except.ok "" := by decide

/-- C6 amended: when the configured cipher version is v2 and the header was
read successfully, Object.Hash on an object whose detected cipher version is
V1 returns the empty string with no error. -/
theorem c6_v1_hash_empty (opt : CryptOptions) (d : DecrypterState) (ct : List Nat)
    (sbOpen : List Nat → List Nat → List Nat → Option (List Nat))
    (ex : Except CryptError Nat)
    (hv : opt.cipherVersion = CipherVersion.v2)
    (hd : d.cipherVersion = CipherVersion.v1) :
    objectHash opt (Except.ok d) ct sbOpen ex = Except.ok "" := by
  simp [objectHash, hv, hd]

/-- Witness for c6_v1_hash_empty at a concrete V1 object. -/
theorem c6_v1_hash_empty_witness :
    objectHash ⟨CipherVersion.v2, false, false, false, false⟩
      (Except.ok ⟨CipherVersion.v1, List.replicate 24 0, List.replicate 32 0⟩)
      [] (fun _ _ _ => none) (Except.error CryptError.sizeError)
      = Except.ok "" :=
  c6_v1_hash_empty _ _ _ _ _ rfl rfl

/-- C5: with no_data_encryption set, contents and sizes pass through
unmodified: put uploads without wrapping the input in an encrypter and never
reaches the hash-mismatch removal, Object.Open returns the underlying reader
directly, ObjectInfo.Size and Object.Size report the underlying size, while
the name used for the upload and ObjectInfo.Remote still apply the name
cipher regardless of the flag. -/
theorem c5_no_data_encryption_passthrough :
    (∀ (encRes : Except String Unit) (encName : String → String) (src : String)
        (env : PutEnv),
      (putFlow true encRes encName src env).dataEncrypted = false
      ∧ (putFlow true encRes encName src env).removeAttempted = false
      ∧ (putFlow true encRes encName src env).uploadName = encName src
      ∧ (putFlow true encRes encName src env).result =
          (match env.putResult with
           | Except.ok o => Except.ok o
           | Except.error e => Except.error (PutError.putFailed e)))
    ∧ (∀ (u : List Nat) (dp : List Nat → Except String (List Nat)),
        objectOpen true u dp = Except.ok u)
    ∧ (∀ (v : CipherVersion) (s : Int), objectInfoSize true v s = s)
    ∧ (∀ (s db : Int), objectSize true s db = s)
    ∧ (∀ (nd : Bool) (encName : String → String) (r : String),
        objectInfoRemote nd encName r = encName r) := by
  refine ⟨fun encRes encName src env => ⟨rfl, rfl, rfl, rfl⟩, fun u dp => rfl,
    fun v s => ?_, fun s db => rfl, fun nd encName r => rfl⟩
  by_cases h : s < 0 <;> simp [objectInfoSize, h]

/-- C3: in an encrypting upload, when a ciphertext hash was computed and the
destination's reported hash differs from it, put attempts to remove the new
object, tolerates a removal failure (the outcome does not depend on the
removal result), and returns the corrupted-on-transfer error instead of the
object. -/
theorem c3_put_hash_mismatch (encName : String → String) (src : String) (env : PutEnv)
    (o : Nat) (dst : String)
    (hsup : env.hashSupported = true) (hput : env.putResult = Except.ok o)
    (hdst : env.dstHashResult = Except.ok dst)
    (hsrc : env.srcHash ≠ "") (hdstne : dst ≠ "") (hne : env.srcHash ≠ dst) :
    (putFlow false (Except.ok ()) encName src env).removeAttempted = true
    ∧ (putFlow false (Except.ok ()) encName src env).result =
        Except.error (PutError.corruptedOnTransfer env.srcHash dst)
    ∧ ∀ rr, putFlow false (Except.ok ()) encName src { env with removeResult := rr } =
        putFlow false (Except.ok ()) encName src env := by
  obtain ⟨hs, pr, sh, dh, rr0⟩ := env
  simp only at hsup hput hdst hsrc hne
  subst hsup hput hdst
  refine ⟨?_, ?_, fun rr => ?_⟩ <;> simp [putFlow, hsrc, hdstne, hne]

/-- Witness for c3_put_hash_mismatch: hashes "aa" vs "bb" differ and the
removal itself fails, yet the hard error is returned. -/
theorem c3_put_hash_mismatch_witness :
    (putFlow false (Except.ok ()) (fun s => s) "file"
        ⟨true, Except.ok 7, "aa", Except.ok "bb", Except.error "rmfail"⟩).result =
      Except.error (PutError.corruptedOnTransfer "aa" "bb") :=
  (c3_put_hash_mismatch (fun s => s) "file" _ 7 "bb" rfl rfl rfl (by decide) (by decide)
    (by decide)).2.1

/-- C1: the footer nonce sealed by the writer (wrapReaderAppendPlaintextHash)
and opened by the reader (Object.Hash) are the same derivation: the starting
nonce advanced by totalBlocks = ceil(plaintextSize / blockSize), with the
last-block-flag byte set; and the emitted footer is exactly the marker byte
followed by the sealed hash, 33 bytes in total, so no separate nonce is
stored in it. -/
theorem c1_footer_nonce_agreement (startNonce : List Nat) (p : Nat)
    (sealFn : List Nat → List Nat → List Nat → List Nat) (md5Bytes cekBytes : List Nat)
    (hseal : ∀ pt n k, (sealFn pt n k).length = pt.length + secretboxOverhead)
    (hmd5 : md5Bytes.length = HashCryptSize) :
    writeFooterNonce startNonce (totalBlocks p) = readFooterNonce startNonce p
    ∧ appendPlaintextHashFooter sealFn md5Bytes startNonce (totalBlocks p) cekBytes
        = hashHeaderMD5 ++ sealFn md5Bytes (readFooterNonce startNonce p) cekBytes
    ∧ (appendPlaintextHashFooter sealFn md5Bytes startNonce (totalBlocks p) cekBytes).length
        = HashEncryptedSizeWithHeader := by
  have hn : writeFooterNonce startNonce (totalBlocks p) = readFooterNonce startNonce p := rfl
  have hlen : (hashHeaderMD5 ++
      sealFn md5Bytes (writeFooterNonce startNonce (totalBlocks p)) cekBytes).length
      = HashEncryptedSizeWithHeader := by
    simp [hashHeaderMD5, hseal, hmd5, HashEncryptedSizeWithHeader, HashEncryptedSize,
      HashCryptSize, secretboxOverhead]
  refine ⟨hn, ?_, ?_⟩
  · unfold appendPlaintextHashFooter
    rw [← hlen, List.take_length, hn]
  · unfold appendPlaintextHashFooter
    rw [← hlen, List.take_length]

/-- Witness for c1_footer_nonce_agreement at a two-block plaintext with a
concrete seal function. -/
theorem c1_footer_nonce_agreement_witness :
    writeFooterNonce (List.replicate 24 0) (totalBlocks 65537)
        = readFooterNonce (List.replicate 24 0) 65537
    ∧ appendPlaintextHashFooter (fun pt _ _ => pt ++ List.replicate 16 0)
        (List.replicate 16 1) (List.replicate 24 0) (totalBlocks 65537) (List.replicate 32 2)
        = hashHeaderMD5 ++ (fun pt _ _ => pt ++ List.replicate 16 0) (List.replicate 16 1)
            (readFooterNonce (List.replicate 24 0) 65537) (List.replicate 32 2)
    ∧ (appendPlaintextHashFooter (fun pt _ _ => pt ++ List.replicate 16 0)
        (List.replicate 16 1) (List.replicate 24 0) (totalBlocks 65537)
        (List.replicate 32 2)).length = HashEncryptedSizeWithHeader :=
  c1_footer_nonce_agreement (List.replicate 24 0) 65537 _ _ _
    (fun pt n k => by simp [secretboxOverhead]) rfl

/-- C2: on a V2 object, Object.Hash reads exactly the final 33 bytes as
hashHeader and sealedHash; header byte 0x00 yields the unsupported result;
header byte 0x01 yields the hex encoding of the value recovered by opening
sealedHash under the CEK at the derived footer nonce; an authentication
failure is a hard error exactly when pass_bad_blocks is not set. -/
theorem c2_hash_footer (opt : CryptOptions) (d : DecrypterState) (ct : List Nat)
    (sbOpen : List Nat → List Nat → List Nat → Option (List Nat))
    (ex : Except CryptError Nat)
    (hv : opt.cipherVersion = CipherVersion.v2) (hd : d.cipherVersion = CipherVersion.v2)
    (hlen : HashEncryptedSizeWithHeader ≤ ct.length) :
    (ct.drop (ct.length - HashEncryptedSizeWithHeader)).length = HashEncryptedSizeWithHeader
    ∧ ((ct.drop (ct.length - HashEncryptedSizeWithHeader)).take 1 = hashHeaderNoHash →
        objectHash opt (Except.ok d) ct sbOpen ex = Except.error CryptError.unsupported)
    ∧ (∀ s, (ct.drop (ct.length - HashEncryptedSizeWithHeader)).take 1 = hashHeaderMD5 →
        (if opt.exactSize then ex else decryptedSizeSpec ct.length CipherVersion.v2)
            = Except.ok s →
        (∀ md5v, sbOpen ((ct.drop (ct.length - HashEncryptedSizeWithHeader)).drop 1)
              (readFooterNonce d.nonce s) d.cek = some md5v →
            objectHash opt (Except.ok d) ct sbOpen ex = Except.ok (hexEncode md5v))
        ∧ (sbOpen ((ct.drop (ct.length - HashEncryptedSizeWithHeader)).drop 1)
              (readFooterNonce d.nonce s) d.cek = none →
            objectHash opt (Except.ok d) ct sbOpen ex =
              if opt.passBadBlocks then Except.ok (hexEncode [])
              else Except.error CryptError.hashDecryption)) := by
  have hnotlt : ¬ ct.length < HashEncryptedSizeWithHeader := Nat.not_lt.mpr hlen
  refine ⟨?_, fun hh => ?_, fun s hh hs => ⟨fun md5v hm => ?_, fun hm => ?_⟩⟩
  · rw [List.length_drop]
    omega
  · simp [objectHash, hv, hd, hnotlt, hh]
  · have hm2 := hm
    simp only [List.drop_drop] at hm2
    simp [objectHash, hv, hd, hnotlt, hh, hs, hm2, hashHeaderMD5, hashHeaderNoHash]
  · have hm2 := hm
    simp only [List.drop_drop] at hm2
    simp [objectHash, hv, hd, hnotlt, hh, hs, hm2, hashHeaderMD5, hashHeaderNoHash]

/-- Concrete decrypter state used by witnesses. -/
def dW : DecrypterState := ⟨CipherVersion.v2, List.replicate 24 0, List.replicate 32 3⟩

/-- Concrete 113-byte V2 ciphertext whose footer header byte is 0x01. -/
def ctMD5 : List Nat := List.replicate 80 9 ++ 1 :: List.replicate 32 5

/-- Concrete 113-byte V2 ciphertext whose footer header byte is 0x00. -/
def ctNoHash : List Nat := List.replicate 80 9 ++ 0 :: List.replicate 32 5

/-- Concrete crypt options: V2, all flags off. -/
def optV2 : CryptOptions := ⟨CipherVersion.v2, false, false, false, false⟩

/-- Concrete crypt options: V2 with pass_bad_blocks set. -/
def optV2pbb : CryptOptions := ⟨CipherVersion.v2, true, false, false, false⟩

/-- Witness for c2_hash_footer: a concrete 113-byte V2 object opened to a
concrete hash, one rejected via header byte 0x00, and an authentication
failure with and without pass_bad_blocks. -/
theorem c2_hash_footer_witness :
    objectHash optV2 (Except.ok dW) ctMD5 (fun _ _ _ => some (List.replicate 16 171))
        (Except.error CryptError.sizeError) = Except.ok (hexEncode (List.replicate 16 171))
    ∧ objectHash optV2 (Except.ok dW) ctNoHash (fun _ _ _ => some (List.replicate 16 171))
        (Except.error CryptError.sizeError) = Except.error CryptError.unsupported
    ∧ objectHash optV2 (Except.ok dW) ctMD5 (fun _ _ _ => none)
        (Except.error CryptError.sizeError) = Except.error CryptError.hashDecryption
    ∧ objectHash optV2pbb (Except.ok dW) ctMD5 (fun _ _ _ => none)
        (Except.error CryptError.sizeError) = Except.ok (hexEncode []) :=
  ⟨((c2_hash_footer optV2 dW ctMD5 (fun _ _ _ => some (List.replicate 16 171))
      (Except.error CryptError.sizeError) rfl rfl (by decide)).2.2 0 (by decide)
      (by decide)).1 (List.replicate 16 171) rfl,
   (c2_hash_footer optV2 dW ctNoHash (fun _ _ _ => some (List.replicate 16 171))
      (Except.error CryptError.sizeError) rfl rfl (by decide)).2.1 (by decide),
   ((c2_hash_footer optV2 dW ctMD5 (fun _ _ _ => none)
      (Except.error CryptError.sizeError) rfl rfl (by decide)).2.2 0 (by decide)
      (by decide)).2 rfl,
   ((c2_hash_footer optV2pbb dW ctMD5 (fun _ _ _ => none)
      (Except.error CryptError.sizeError) rfl rfl (by decide)).2.2 0 (by decide)
      (by decide)).2 rfl⟩

/-- Number of listed entries whose names fail to decrypt. -/
def failCount (dfile ddir : String → Except String String) (es : List RawEntry) : Nat :=
  (es.filter (fun e => isErrB (entryDecrypt dfile ddir e))).length

/-- The error message an entry's name decryption produced (empty for
successes). -/
def errOf (dfile ddir : String → Except String String) (e : RawEntry) : String :=
  match entryDecrypt dfile ddir e with
  | Except.error err => err
  | Except.ok _ => ""

/-- With strict_names off the listing loop never errors: it keeps exactly
the decryptable entries, in order. -/
theorem encryptEntriesGo_lenient (dfile ddir : String → Except String String)
    (es : List RawEntry) : ∀ acc : List String,
    encryptEntriesGo false dfile ddir es acc 0 none
      = Except.ok (acc ++ es.filterMap (fun e => exceptToOption (entryDecrypt dfile ddir e))) := by
  induction es with
  | nil => intro acc; simp [encryptEntriesGo]
  | cons e rest ih =>
    intro acc
    cases h : entryDecrypt dfile ddir e with
    | ok dec => simp [encryptEntriesGo, addEntry, h, ih, exceptToOption]
    | error err => simp [encryptEntriesGo, addEntry, h, ih, exceptToOption]

/-- Once a first error is recorded, the strict listing loop ends in the
undecryptable error, counting every later failure as well. -/
theorem encryptEntriesGo_strict_some (dfile ddir : String → Except String String)
    (es : List RawEntry) : ∀ (acc : List String) (errs : Nat) (n0 f0 : String),
    encryptEntriesGo true dfile ddir es acc errs (some (n0, f0))
      = Except.error (ListError.undecryptable (errs + failCount dfile ddir es) n0 f0) := by
  induction es with
  | nil => intro acc errs n0 f0; simp [encryptEntriesGo, failCount]
  | cons e rest ih =>
    intro acc errs n0 f0
    cases h : entryDecrypt dfile ddir e with
    | ok dec =>
      simp [encryptEntriesGo, addEntry, h, ih, failCount, isErrB, List.filter_cons]
    | error err =>
      simp [encryptEntriesGo, addEntry, h, ih, failCount, isErrB, List.filter_cons]
      omega

/-- The strict listing loop before any error: its outcome is decided by the
first undecryptable entry, if any. -/
theorem encryptEntriesGo_strict_none (dfile ddir : String → Except String String)
    (es : List RawEntry) : ∀ (acc : List String) (errs : Nat),
    encryptEntriesGo true dfile ddir es acc errs none
      = match es.find? (fun e => isErrB (entryDecrypt dfile ddir e)) with
        | none =>
          Except.ok (acc ++ es.filterMap (fun e => exceptToOption (entryDecrypt dfile ddir e)))
        | some e0 =>
          Except.error (ListError.undecryptable (errs + failCount dfile ddir es)
            e0.encName (errOf dfile ddir e0)) := by
  induction es with
  | nil => intro acc errs; simp [encryptEntriesGo]
  | cons e rest ih =>
    intro acc errs
    cases h : entryDecrypt dfile ddir e with
    | ok dec =>
      have hstep : encryptEntriesGo true dfile ddir (e :: rest) acc errs none
          = encryptEntriesGo true dfile ddir rest (acc ++ [dec]) errs none := by
        simp [encryptEntriesGo, addEntry, h]
      rw [hstep, ih]
      rw [List.find?_cons_of_neg _ (by simp [h, isErrB])]
      cases hf : rest.find? (fun x => isErrB (entryDecrypt dfile ddir x)) with
      | none => simp [List.filterMap_cons, h, exceptToOption]
      | some e0 => simp [failCount, List.filter_cons, isErrB, h]
    | error err =>
      have hstep : encryptEntriesGo true dfile ddir (e :: rest) acc errs none
          = encryptEntriesGo true dfile ddir rest acc (errs + 1) (some (e.encName, err)) := by
        simp [encryptEntriesGo, addEntry, h]
      rw [hstep, encryptEntriesGo_strict_some]
      rw [List.find?_cons_of_pos _ (by simp [h, isErrB])]
      simp [failCount, List.filter_cons, isErrB, h, errOf]
      omega

/-- C4: an entry whose name fails to decrypt is, with strict_names off,
skipped while all remaining decryptable entries are still returned in
order; with strict_names on, the listing fails with a hard error carrying
the number of undecryptable names and the first such error. -/
theorem c4_listing_undecryptable (dfile ddir : String → Except String String)
    (es : List RawEntry) :
    encryptEntries false dfile ddir es
        = Except.ok (es.filterMap (fun e => exceptToOption (entryDecrypt dfile ddir e)))
    ∧ (es.find? (fun e => isErrB (entryDecrypt dfile ddir e)) = none →
        encryptEntries true dfile ddir es
          = Except.ok (es.filterMap (fun e => exceptToOption (entryDecrypt dfile ddir e))))
    ∧ (∀ e0 err0, es.find? (fun e => isErrB (entryDecrypt dfile ddir e)) = some e0 →
        entryDecrypt dfile ddir e0 = Except.error err0 →
        encryptEntries true dfile ddir es
          = Except.error (ListError.undecryptable (failCount dfile ddir es)
              e0.encName err0)) := by
  refine ⟨?_, fun hf => ?_, fun e0 err0 hf he => ?_⟩
  · simpa using encryptEntriesGo_lenient dfile ddir es []
  · have := encryptEntriesGo_strict_none dfile ddir es [] 0
    rw [hf] at this
    simpa [encryptEntries] using this
  · have := encryptEntriesGo_strict_none dfile ddir es [] 0
    rw [hf] at this
    simpa [encryptEntries, errOf, he] using this

/-- Concrete file-name decrypter for witnesses: fails on the name "bad". -/
def dfileW : String → Except String String :=
  fun s => if s = "bad" then Except.error "boom" else Except.ok (s ++ "p")

/-- Concrete dir-name decrypter for witnesses: fails on the name "badd". -/
def ddirW : String → Except String String :=
  fun s => if s = "badd" then Except.error "boomd" else Except.ok (s ++ "d")

/-- Witness for c4_listing_undecryptable on a mixed concrete listing: with
strict_names off the undecryptable entry is skipped, with strict_names on
the listing errors with count 1 and the failing name. -/
theorem c4_listing_undecryptable_witness :
    encryptEntries false dfileW ddirW [⟨false, "a"⟩, ⟨false, "bad"⟩, ⟨true, "d"⟩]
        = Except.ok ["ap", "dd"]
    ∧ encryptEntries true dfileW ddirW [⟨false, "a"⟩, ⟨false, "bad"⟩, ⟨true, "d"⟩]
        = Except.error (ListError.undecryptable 1 "bad" "boom")
    ∧ encryptEntries true dfileW ddirW [⟨false, "a"⟩, ⟨true, "d"⟩]
        = Except.ok ["ap", "dd"] := by
  refine ⟨?_, ?_, ?_⟩
  · have h := (c4_listing_undecryptable dfileW ddirW
      [⟨false, "a"⟩, ⟨false, "bad"⟩, ⟨true, "d"⟩]).1
    rw [h]; decide
  · have h := (c4_listing_undecryptable dfileW ddirW
      [⟨false, "a"⟩, ⟨false, "bad"⟩, ⟨true, "d"⟩]).2.2 ⟨false, "bad"⟩ "boom"
      (by decide) (by decide)
    rw [h]; decide
  · have h := (c4_listing_undecryptable dfileW ddirW
      [⟨false, "a"⟩, ⟨true, "d"⟩]).2.1 (by decide)
    rw [h]; decide

/-- Soundness half of the decode command: a successful run means every name
decrypted, in input order. -/
theorem decodeCommand_sound (dec : String → Except String String) :
    ∀ (args : List String) (results : List String),
    decodeCommand dec args = Except.ok results →
    args.map dec = results.map Except.ok := by
  intro args
  induction args with
  | nil =>
    intro results h
    simp [decodeCommand] at h
    subst h
    simp
  | cons a rest ih =>
    intro results h
    cases hda : dec a with
    | error e => simp [decodeCommand, hda] at h
    | ok v =>
      cases hrec : decodeCommand dec rest with
      | error pr => simp [decodeCommand, hda, hrec] at h
      | ok vs =>
        simp [decodeCommand, hda, hrec] at h
        subst h
        simp [hda, ih vs hrec]

/-- Completeness half of the decode command: if every name decrypts to the
given results in order, the command returns them. -/
theorem decodeCommand_complete (dec : String → Except String String) :
    ∀ (args : List String) (results : List String),
    args.map dec = results.map Except.ok →
    decodeCommand dec args = Except.ok results := by
  intro args
  induction args with
  | nil =>
    intro results h
    cases results with
    | nil => simp [decodeCommand]
    | cons r rs => simp at h
  | cons a rest ih =>
    intro results h
    cases results with
    | nil => simp at h
    | cons r rs =>
      simp at h
      obtain ⟨h1, h2⟩ := h
      simp [decodeCommand, h1, ih rs h2]

/-- C7: the decode command applies DecryptFileName to each argument in input
order and returns exactly the decoded names; the first undecryptable input
makes it fail with an error naming that input. -/
theorem c7_decode_command (dec : String → Except String String) (args : List String) :
    (∀ results, decodeCommand dec args = Except.ok results ↔
        args.map dec = results.map Except.ok)
    ∧ (∀ a0 e0, args.find? (fun a => isErrB (dec a)) = some a0 →
        dec a0 = Except.error e0 →
        decodeCommand dec args = Except.error (a0, e0)) := by
  constructor
  · intro results
    exact ⟨decodeCommand_sound dec args results, decodeCommand_complete dec args results⟩
  · intro a0 e0 hf he
    induction args with
    | nil => simp at hf
    | cons a rest ih =>
      cases hda : dec a with
      | error e =>
        rw [List.find?_cons_of_pos _ (by simp [hda, isErrB])] at hf
        have ha : a = a0 := by injection hf
        subst ha
        rw [hda] at he
        have he2 : e = e0 := by injection he
        subst he2
        simp [decodeCommand, hda]
      | ok v =>
        rw [List.find?_cons_of_neg _ (by simp [hda, isErrB])] at hf
        simp [decodeCommand, hda, ih hf]

/-- Witness for c7_decode_command: a run where all names decode, and a run
failing on the name "bad". -/
theorem c7_decode_command_witness :
    decodeCommand dfileW ["a", "b"] = Except.ok ["ap", "bp"]
    ∧ decodeCommand dfileW ["a", "bad", "c"] = Except.error ("bad", "boom") :=
  ⟨((c7_decode_command dfileW ["a", "b"]).1 ["ap", "bp"]).mpr (by decide),
   (c7_decode_command dfileW ["a", "bad", "c"]).2 "bad" "boom" (by decide) (by decide)⟩

end RcloneCrypt
